import Mathlib

/-!
Verification development for the market/macro dashboard pipeline (`app.py`).

The pipeline fetches an equity table (SPY, QQQ, ^TNX closes) and five FRED
series (WALCL, WTREGEN, RRPONTSYD, SOFR, EFFR), merges the macro series into
one frame on the sorted union of their dates, forward-fills, derives the
Net_Liquidity and Rate_Spread columns, inner-joins with the equity table on
trading days, sorts by date and forward-fills once more.

Dates are modelled as day numbers, values as rationals, and a missing value
(pandas NaN) as `none`.
-/

/-- A raw provider series: dated observations (dates are day numbers), in delivery order. -/
abbrev RawSeries := List (ℕ × ℚ)

/-- Exact-date lookup in a raw series (a pandas Series indexing operation). -/
def lookupObs (s : RawSeries) (d : ℕ) : Option ℚ :=
  (s.find? fun p => p.1 == d).map Prod.snd

/-- One row of a frame, with every column the pipeline ever stores; `none` models NaN. -/
@[ext]
structure Row where
  SPY : Option ℚ
  QQQ : Option ℚ
  Y10_Yield : Option ℚ
  Total_Assets : Option ℚ
  TGA : Option ℚ
  RRP : Option ℚ
  SOFR : Option ℚ
  EFFR : Option ℚ
  Net_Liquidity : Option ℚ
  Rate_Spread : Option ℚ
deriving DecidableEq

/-- The all-missing row. -/
def Row.blank : Row := ⟨none, none, none, none, none, none, none, none, none, none⟩

/-- Forward-fill one cell: keep the current value, otherwise the previous one. -/
def keep (cur prev : Option ℚ) : Option ℚ :=
  match cur with
  | some v => some v
  | none => prev

/-- Forward-fill one row from the previously filled row, column by column. -/
def Row.ffillWith (prev r : Row) : Row :=
  ⟨keep r.SPY prev.SPY, keep r.QQQ prev.QQQ, keep r.Y10_Yield prev.Y10_Yield,
   keep r.Total_Assets prev.Total_Assets, keep r.TGA prev.TGA, keep r.RRP prev.RRP,
   keep r.SOFR prev.SOFR, keep r.EFFR prev.EFFR,
   keep r.Net_Liquidity prev.Net_Liquidity, keep r.Rate_Spread prev.Rate_Spread⟩

/-- A frame: rows keyed by date, in positional order. -/
abbrev Table := List (ℕ × Row)

/-- The forward-fill scan down a frame, carrying the last filled row. -/
def ffillGo (prev : Row) : Table → Table
  | [] => []
  | p :: rest => (p.1, Row.ffillWith prev p.2) :: ffillGo (Row.ffillWith prev p.2) rest

/-- Positional forward fill of every column: `df.fillna(method='ffill')`. -/
def fillna_ffill (t : Table) : Table := ffillGo Row.blank t

/-- The five raw FRED series fetched at lines 63-69 of `app.py`. -/
structure MacroBundle where
  Total_Assets : RawSeries
  TGA : RawSeries
  RRP : RawSeries
  SOFR : RawSeries
  EFFR : RawSeries

/-- Index of `pd.DataFrame(macro_series)`: the sorted union of the five series' dates. -/
def macroDates (m : MacroBundle) : List ℕ :=
  (((m.Total_Assets ++ m.TGA ++ m.RRP ++ m.SOFR ++ m.EFFR).map Prod.fst).insertionSort
    (· ≤ ·)).dedup

/-- A macro-frame row before any fill: the raw series values at the given date. -/
def macroRow0 (m : MacroBundle) (d : ℕ) : Row :=
  ⟨none, none, none, lookupObs m.Total_Assets d, lookupObs m.TGA d, lookupObs m.RRP d,
   lookupObs m.SOFR d, lookupObs m.EFFR d, none, none⟩

/-- The macro frame built at line 70 of `app.py`. -/
def macro_df (m : MacroBundle) : Table :=
  (macroDates m).map fun d => (d, macroRow0 m d)

/-- Net liquidity formula of line 78, with NaN propagation. -/
def optNetLiq (a g r : Option ℚ) : Option ℚ :=
  match a, g, r with
  | some a, some g, some r => some ((a - g - r) / 1000)
  | _, _, _ => none

/-- Rate spread formula of line 81, with NaN propagation. -/
def optSpread (s e : Option ℚ) : Option ℚ :=
  match s, e with
  | some s, some e => some (s - e)
  | _, _ => none

/-- Add the two derived columns to one row (lines 78 and 81). -/
def deriveRow (r : Row) : Row :=
  { r with Net_Liquidity := optNetLiq r.Total_Assets r.TGA r.RRP,
           Rate_Spread := optSpread r.SOFR r.EFFR }

/-- Add the two derived columns to the macro frame (lines 78 and 81). -/
def addDerived (t : Table) : Table := t.map fun p => (p.1, deriveRow p.2)

/-- Combine an equity row and a macro row into one joined row. -/
def joinRow (sr mr : Row) : Row :=
  ⟨sr.SPY, sr.QQQ, sr.Y10_Yield, mr.Total_Assets, mr.TGA, mr.RRP, mr.SOFR, mr.EFFR,
   mr.Net_Liquidity, mr.Rate_Spread⟩

/-- Row of a frame at an exact date, if present. -/
def rowAt (t : Table) (d : ℕ) : Option Row :=
  (t.find? fun p => p.1 == d).map Prod.snd

/-- Inner join on the date index (line 85): keep equity dates present in the macro frame. -/
def join_inner (stock mt : Table) : Table :=
  stock.filterMap fun p => (rowAt mt p.1).map fun mr => (p.1, joinRow p.2 mr)

/-- Sort the frame by its date index (line 85, `.sort_index()`). -/
def sort_index (t : Table) : Table := t.insertionSort fun a b => a.1 ≤ b.1

/-- Lines 70-86 of `app.py`: merge, forward-fill, derive, inner-join, sort, forward-fill. -/
def df_final (stock : Table) (m : MacroBundle) : Table :=
  fillna_ffill (sort_index (join_inner stock (addDerived (fillna_ffill (macro_df m)))))

/-- Lines 35-92 of `app.py`: any fetch failure short-circuits to an empty frame; only when
the equity fetch and all five FRED fetches succeed is the aligned frame built. -/
def get_data_bundle (stockRes : Except String Table)
    (taRes tgaRes rrpRes sofrRes effrRes : Except String RawSeries) : Table :=
  match stockRes with
  | Except.error _ => []
  | Except.ok stock =>
    match taRes, tgaRes, rrpRes, sofrRes, effrRes with
    | Except.ok ta, Except.ok tga, Except.ok rrp, Except.ok sofr, Except.ok effr =>
        df_final stock ⟨ta, tga, rrp, sofr, effr⟩
    | _, _, _, _, _ => []

/-! Specification-side descriptions used to characterise the pipeline. -/

/-- Value of the most recent observation of `s` on or before `d` (forward-fill semantics). -/
def lastObsLE (s : RawSeries) (d : ℕ) : Option ℚ :=
  ((s.filter fun p => p.1 ≤ d).getLast?).map Prod.snd

/-- The fully forward-filled macro row at date `d`, before derived columns. -/
def macroRowF (m : MacroBundle) (d : ℕ) : Row :=
  ⟨none, none, none, lastObsLE m.Total_Assets d, lastObsLE m.TGA d, lastObsLE m.RRP d,
   lastObsLE m.SOFR d, lastObsLE m.EFFR d, none, none⟩

/-- The fully forward-filled macro row at date `d`, with the derived columns. -/
def macroFillRow (m : MacroBundle) (d : ℕ) : Row := deriveRow (macroRowF m d)

/-- Left fold of the forward-fill cell combinator over a column. -/
def keepFold (init : Option ℚ) (l : List (Option ℚ)) : Option ℚ :=
  l.foldl (fun acc v => keep v acc) init

/-- A raw series has strictly increasing dates. -/
abbrev SortedSeries (s : RawSeries) : Prop := List.Sorted (· < ·) (s.map Prod.fst)

/-- A frame has a strictly increasing date index. -/
abbrev SortedTable (t : Table) : Prop := List.Sorted (· < ·) (t.map Prod.fst)

/-- All five raw macro series have strictly increasing dates. -/
abbrev SortedBundle (m : MacroBundle) : Prop :=
  SortedSeries m.Total_Assets ∧ SortedSeries m.TGA ∧ SortedSeries m.RRP ∧
  SortedSeries m.SOFR ∧ SortedSeries m.EFFR

/-- Names of the five macro columns. -/
inductive MCol where
  | Total_Assets
  | TGA
  | RRP
  | SOFR
  | EFFR
deriving DecidableEq

/-- Projection of a row at a macro column. -/
def Row.mcol (r : Row) : MCol → Option ℚ
  | MCol.Total_Assets => r.Total_Assets
  | MCol.TGA => r.TGA
  | MCol.RRP => r.RRP
  | MCol.SOFR => r.SOFR
  | MCol.EFFR => r.EFFR

/-- The raw series feeding a macro column. -/
def MacroBundle.seriesOf (m : MacroBundle) : MCol → RawSeries
  | MCol.Total_Assets => m.Total_Assets
  | MCol.TGA => m.TGA
  | MCol.RRP => m.RRP
  | MCol.SOFR => m.SOFR
  | MCol.EFFR => m.EFFR

/-! Presentation-layer computations (lines 131-149 of `app.py`). -/

/-- Latest row, `df.iloc[-1]` (guarded by the `not df.empty` check). -/
def latestRow (df : Table) : Option (ℕ × Row) := df.getLast?

/-- Previous row, `df.iloc[-2] if len(df) > 1 else latest` (line 133). -/
def prevRow (df : Table) : Option (ℕ × Row) :=
  if 1 < df.length then df[df.length - 2]? else df.getLast?

/-- Percentage-change delta `(latest/prev - 1) * 100`, with NaN propagation. -/
def pctChange (cur prev : Option ℚ) : Option ℚ :=
  match cur, prev with
  | some a, some b => some ((a / b - 1) * 100)
  | _, _ => none

/-- Difference delta `latest - prev`, with NaN propagation. -/
def diffChange (cur prev : Option ℚ) : Option ℚ :=
  match cur, prev with
  | some a, some b => some (a - b)
  | _, _ => none

/-- A KPI delta computed from the latest and previous rows (lines 141-144). -/
def kpiDelta (f : Row → Option ℚ) (op : Option ℚ → Option ℚ → Option ℚ)
    (df : Table) : Option ℚ :=
  match latestRow df, prevRow df with
  | some l, some p => op (f l.2) (f p.2)
  | _, _ => none

/-- Stress classification of the latest rate spread (line 148). -/
def classifyStress (spread : ℚ) : String :=
  if spread > 0.05 then "⚠️ 紧张" else "正常"

/-! Sidebar lookback presets (lines 102-121 of `app.py`). -/

/-- Resolved start date: either today minus a day count, or January 1 of the current year. -/
inductive StartDate where
  | nowMinusDays (days : ℕ)
  | janFirstOfCurrentYear
deriving DecidableEq

/-- Preset table of line 102: labels mapped to a day count or the marker string. -/
def time_options : List (String × (ℕ ⊕ String)) :=
  [("1个月 (短线)", Sum.inl 30), ("3个月 (季度)", Sum.inl 90), ("6个月 (中期)", Sum.inl 180),
   ("今年以来 (YTD)", Sum.inr "YTD"), ("1年", Sum.inl 365), ("2年", Sum.inl 730),
   ("5年 (长周期)", Sum.inl 1825)]

/-- Day counts of the recognised presets. -/
def dayCountPresets : List ℕ :=
  time_options.filterMap fun p =>
    match p.2 with
    | Sum.inl n => some n
    | Sum.inr _ => none

/-- Start-date resolution of lines 114-118: the YTD label resolves to January 1 of the
current year, any other recognised label to today minus its day count. -/
def resolveStartDate (selected : String) : Option StartDate :=
  if selected = "今年以来 (YTD)" then some StartDate.janFirstOfCurrentYear
  else
    match (time_options.find? fun p => p.1 == selected).map Prod.snd with
    | some (Sum.inl n) => some (StartDate.nowMinusDays n)
    | some (Sum.inr _) => none
    | none => none

/-! Equity column cleaning (lines 44-50 of `app.py`). -/

/-- A column label of the downloaded equity frame: single level, or two levels. -/
inductive ColLabel where
  | single (name : String)
  | pair (level0 level1 : String)
deriving DecidableEq

/-- Whether the column structure is a pandas MultiIndex (line 45). -/
def isMultiIndexCols (cols : List ColLabel) : Bool :=
  cols.any fun c =>
    match c with
    | ColLabel.pair _ _ => true
    | ColLabel.single _ => false

/-- Outermost level of one column label, `columns.get_level_values(0)`. -/
def getLevelValues0 (c : ColLabel) : String :=
  match c with
  | ColLabel.single n => n
  | ColLabel.pair a _ => a

/-- Lines 45-46: if the columns are a MultiIndex, replace them by their outermost level;
otherwise the columns are left as they are — and a single-level label's name is exactly
its outermost level, so the untouched branch is the same projection. -/
def cleanStockColumns (cols : List ColLabel) : List String :=
  if isMultiIndexCols cols then cols.map getLevelValues0
  else cols.map getLevelValues0

/-- Rename mapper of line 49. -/
def mapperRename (s : String) : String :=
  match s with
  | "^TNX" => "10Y_Yield"
  | "QQQ" => "QQQ"
  | "SPY" => "SPY"
  | other => other

/-! Startup key handling (lines 19-28 and 129 of `app.py`). -/

/-- Placeholder key the script falls back to when `st.secrets` has no entry (line 23). -/
def placeholderKey : String := "在此处填入你的FRED_API_KEY"

/-- Key resolution of lines 19-23: the secret when configured, else the placeholder string. -/
def resolveFredKey (secrets : Option String) : String :=
  match secrets with
  | some k => k
  | none => placeholderKey

/-- Observable events of one script run, in order. -/
inductive Event where
  | startupConfigError
  | equityFetch
  | macroFetch
  | fetchError
  | render
deriving DecidableEq

/-- Control flow of the script with respect to the key, as a trace of events.
The `Fred(api_key=...)` constructor of lines 25-28 accepts any non-null key string without
contacting the provider, so with the resolved key (always a string) it never raises and the
`st.error` of line 28 is never shown; the script then always calls `get_data_bundle`
(line 129), which attempts the equity fetch and then the macro fetches, and an invalid key
surfaces as the caught fetch error of lines 90-92. -/
def scriptTrace (secrets : Option String) (keyValid : String → Bool) : List Event :=
  [Event.equityFetch, Event.macroFetch] ++
    (if keyValid (resolveFredKey secrets) then [Event.render] else [Event.fetchError])

/-- The bundle returned when the equity fetch and all five macro fetches succeed. -/
def okBundle (stock : Table) (ta tga rrp sofr effr : RawSeries) : Table :=
  get_data_bundle (Except.ok stock) (Except.ok ta) (Except.ok tga) (Except.ok rrp)
    (Except.ok sofr) (Except.ok effr)

/-- Modelled from the spec (sections 4.2-4.3 ordering): first align — inner join of the
equity frame with the forward-filled macro frame, sort by date, second forward fill — and
only then derive the Net_Liquidity and Rate_Spread columns from the aligned inputs. -/
def df_final_specOrder (stock : Table) (m : MacroBundle) : Table :=
  addDerived (fillna_ffill (sort_index (join_inner stock (fillna_ffill (macro_df m)))))

/-! Concrete data used to instantiate the theorems below. -/

/-- A one-row equity table at day 1. -/
def stockW : Table :=
  [(1, ⟨some 100, some 200, some 4, none, none, none, none, none, none, none⟩)]

def taW : RawSeries := [(1, 8000000)]

def tgaW : RawSeries := [(1, 700000)]

def rrpW : RawSeries := [(1, 300000)]

def sofrW : RawSeries := [(1, 5)]

def effrW : RawSeries := [(1, 6)]

/-- A two-day equity table at days 1 and 2. -/
def stockW2 : Table :=
  [(1, ⟨some 100, some 200, some 4, none, none, none, none, none, none, none⟩),
   (2, ⟨some 101, some 201, some 4, none, none, none, none, none, none, none⟩)]

/-- A balance-sheet series whose first observation is only on day 2. -/
def taW2 : RawSeries := [(2, 8000000)]

def tgaW2 : RawSeries := [(1, 700000), (2, 700001)]

def rrpW2 : RawSeries := [(1, 300000), (2, 300001)]

def sofrW2 : RawSeries := [(1, 5), (2, 5)]

def effrW2 : RawSeries := [(1, 6), (2, 6)]

/-- A one-row aligned frame used for the single-row boundary checks. -/
def rowW : Row :=
  ⟨some 100, some 200, some 4, some 8000000, some 700000, some 300000, some 5, some 6,
   some 7000, some (-1)⟩

/-! Basic lemmas about the forward-fill scan. -/

lemma length_ffillGo (prev : Row) (t : Table) : (ffillGo prev t).length = t.length := by
  induction t generalizing prev with
  | nil => rfl
  | cons p rest ih => simp [ffillGo, ih]

lemma map_fst_ffillGo (prev : Row) (t : Table) :
    (ffillGo prev t).map Prod.fst = t.map Prod.fst := by
  induction t generalizing prev with
  | nil => rfl
  | cons p rest ih => simp [ffillGo, ih]

lemma ffillGo_get (t : Table) (prev : Row) (i : ℕ) (h : i < t.length)
    (h2 : i < (ffillGo prev t).length) :
    (ffillGo prev t).get ⟨i, h2⟩ =
      ((t.get ⟨i, h⟩).1, (t.take (i+1)).foldl (fun acc p => Row.ffillWith acc p.2) prev) := by
  induction t generalizing prev i with
  | nil => exact absurd h (by simp)
  | cons p rest ih =>
    cases i with
    | zero => simp [ffillGo, List.foldl]
    | succ i =>
      have h' : i < rest.length := by simpa using h
      have h2' : i < (ffillGo (Row.ffillWith prev p.2) rest).length := by
        simpa [length_ffillGo] using h'
      simpa [ffillGo, List.foldl] using ih (Row.ffillWith prev p.2) i h' h2'

/-- Column projection of the row-level forward-fill fold. -/
lemma foldl_ffillWith_proj (g : Row → Option ℚ)
    (hg : ∀ a r, g (Row.ffillWith a r) = keep (g r) (g a)) (l : Table) (a : Row) :
    g (l.foldl (fun acc p => Row.ffillWith acc p.2) a) = keepFold (g a) (l.map fun p => g p.2) := by
  induction l generalizing a with
  | nil => rfl
  | cons p rest ih => simp [List.foldl, keepFold, ih, hg, keep]

lemma keepFold_append (a : Option ℚ) (l1 l2 : List (Option ℚ)) :
    keepFold a (l1 ++ l2) = keepFold (keepFold a l1) l2 := by
  simp [keepFold, List.foldl_append]

lemma keepFold_all_none {l : List (Option ℚ)} (h : ∀ v ∈ l, v = none) (a : Option ℚ) :
    keepFold a l = a := by
  induction l generalizing a with
  | nil => rfl
  | cons v rest ih =>
    have hv : v = none := h v (by simp)
    have hr : ∀ w ∈ rest, w = none := fun w hw => h w (by simp [hw])
    simp [keepFold, hv, keep] at ih ⊢
    exact ih hr _

lemma keepFold_concat_closed {l : List (Option ℚ)} {x : Option ℚ}
    (hcl : x = none → ∀ v ∈ l, v = none) : keepFold none (l ++ [x]) = x := by
  rw [keepFold_append]
  cases x with
  | some v => rfl
  | none => rw [keepFold_all_none (hcl rfl)]; rfl

/-! Lemmas about exact-date lookup and last-observation-on-or-before. -/

lemma lookupObs_eq_none {s : RawSeries} {d : ℕ} :
    lookupObs s d = none ↔ ∀ p ∈ s, p.1 ≠ d := by
  simp [lookupObs, List.find?_eq_none]

lemma mem_of_lookupObs {s : RawSeries} {d : ℕ} {v : ℚ} (h : lookupObs s d = some v) :
    (d, v) ∈ s := by
  simp only [lookupObs, Option.map_eq_some'] at h
  obtain ⟨⟨d', v'⟩, hp, hv⟩ := h
  have h1 : d' = d := by simpa using List.find?_some hp
  have h2 := List.mem_of_find?_eq_some hp
  subst h1
  cases hv
  exact h2

lemma sortedSeries_tail {q : ℕ × ℚ} {rest : RawSeries} (h : SortedSeries (q :: rest)) :
    SortedSeries rest := by
  simpa [SortedSeries, List.map_cons] using (List.pairwise_cons.mp h).2

lemma sortedSeries_head_lt {q : ℕ × ℚ} {rest : RawSeries} (h : SortedSeries (q :: rest))
    {p : ℕ × ℚ} (hp : p ∈ rest) : q.1 < p.1 := by
  have := (List.pairwise_cons.mp h).1
  exact this p.1 (List.mem_map_of_mem Prod.fst hp)

lemma lastObsLE_of_mem {s : RawSeries} (hs : SortedSeries s) {d : ℕ} {v : ℚ}
    (h : (d, v) ∈ s) : lastObsLE s d = some v := by
  induction s with
  | nil => cases h
  | cons q rest ih =>
    rcases List.mem_cons.mp h with hq | hr
    · subst hq
      have hrest : (rest.filter fun p => p.1 ≤ d) = [] := by
        rw [List.filter_eq_nil_iff]
        intro p hp hcontra
        have hlt : d < p.1 := by simpa using sortedSeries_head_lt hs hp
        have hle : p.1 ≤ d := by simpa using hcontra
        omega
      simp [lastObsLE, List.filter_cons, hrest]
    · have hd : q.1 < d := sortedSeries_head_lt hs hr
      have hq : q.1 ≤ d := le_of_lt hd
      have ihr := ih (sortedSeries_tail hs) hr
      have hne : (rest.filter fun p => p.1 ≤ d) ≠ [] := by
        have hmem : (d, v) ∈ rest.filter fun p => p.1 ≤ d :=
          List.mem_filter.mpr ⟨hr, by simp⟩
        exact List.ne_nil_of_mem hmem
      rcases hfr : rest.filter fun p => p.1 ≤ d with _ | ⟨b, bs⟩
      · exact absurd hfr hne
      · unfold lastObsLE
        rw [List.filter_cons, if_pos (by simpa using hq), hfr, List.getLast?_cons_cons]
        unfold lastObsLE at ihr
        rw [hfr] at ihr
        exact ihr

lemma lastObsLE_none_iff {s : RawSeries} {d : ℕ} :
    lastObsLE s d = none ↔ ∀ p ∈ s, ¬ p.1 ≤ d := by
  simp [lastObsLE, List.getLast?_eq_none_iff, List.filter_eq_nil_iff]

lemma lastObsLE_mono_none {s : RawSeries} {d d' : ℕ} (hdd : d' ≤ d)
    (h : lastObsLE s d = none) : lastObsLE s d' = none := by
  rw [lastObsLE_none_iff] at h ⊢
  intro p hp hle
  exact h p hp (le_trans hle hdd)

lemma lastObsLE_congr {s : RawSeries} {d d' : ℕ} (hdd : d ≤ d')
    (hgap : ∀ p ∈ s, p.1 ≤ d' → p.1 ≤ d) : lastObsLE s d' = lastObsLE s d := by
  unfold lastObsLE
  rw [List.filter_congr]
  intro p hp
  simp only [decide_eq_decide]
  exact ⟨hgap p hp, fun h => le_trans h hdd⟩

/-- Forward-filling the exact-date lookups of a sorted series down a sorted index containing
all its observation dates produces, at each position, the most recent observation on or
before that position's date. -/
lemma keepFold_lookup {s : RawSeries} (hs : SortedSeries s) {idx : List ℕ}
    (hidx : List.Sorted (· < ·) idx) (hobs : ∀ p ∈ s, p.1 ∈ idx) :
    ∀ (i : ℕ) (h : i < idx.length),
      keepFold none ((idx.take (i+1)).map (lookupObs s)) = lastObsLE s (idx.get ⟨i, h⟩) := by
  intro i
  induction i with
  | zero =>
    intro h
    rcases idx with _ | ⟨d, rest⟩
    · exact absurd h (by simp)
    · have hget : (d :: rest).get ⟨0, h⟩ = d := rfl
      have htake : (d :: rest).take 1 = [d] := rfl
      rw [hget, htake, List.map_singleton]
      rcases hl : lookupObs s d with _ | v
      · have hnone : lastObsLE s d = none := by
          rw [lastObsLE_none_iff]
          intro p hp hle
          rcases List.mem_cons.mp (hobs p hp) with h1 | h1
          · exact (lookupObs_eq_none.mp hl p hp) h1
          · have hlt : d < p.1 := (List.pairwise_cons.mp hidx).1 p.1 h1
            omega
        rw [hnone]
        rfl
      · rw [lastObsLE_of_mem hs (mem_of_lookupObs hl)]
        rfl
  | succ i ih =>
    intro h
    have h' : i < idx.length := Nat.lt_of_succ_lt h
    have hpg := List.pairwise_iff_get.mp hidx
    have htake : idx.take (i+1+1) = idx.take (i+1) ++ [idx.get ⟨i+1, h⟩] := by
      rw [List.get_eq_getElem]
      exact (List.take_concat_get' idx (i+1) h).symm
    rw [htake, List.map_append, keepFold_append, List.map_singleton, ih h']
    have hdd : idx.get ⟨i, h'⟩ < idx.get ⟨i+1, h⟩ :=
      hpg ⟨i, h'⟩ ⟨i+1, h⟩ (by simp [Fin.lt_def])
    rcases hl : lookupObs s (idx.get ⟨i+1, h⟩) with _ | v
    · have hcongr : lastObsLE s (idx.get ⟨i+1, h⟩) = lastObsLE s (idx.get ⟨i, h'⟩) := by
        apply lastObsLE_congr (le_of_lt hdd)
        intro p hp hle
        rcases List.mem_iff_get.mp (hobs p hp) with ⟨j, hj⟩
        have hne : p.1 ≠ idx.get ⟨i+1, h⟩ := lookupObs_eq_none.mp hl p hp
        rcases lt_trichotomy j.val (i+1) with hc | hc | hc
        · have hle2 : idx.get j ≤ idx.get ⟨i, h'⟩ := by
            rcases Nat.lt_or_ge j.val i with h2 | h2
            · exact le_of_lt (hpg j ⟨i, h'⟩ (by simpa [Fin.lt_def] using h2))
            · have hji : j = (⟨i, h'⟩ : Fin idx.length) := Fin.ext (show j.val = i by omega)
              exact le_of_eq (congrArg idx.get hji)
          rw [← hj]
          exact hle2
        · have hji : j = (⟨i+1, h⟩ : Fin idx.length) := Fin.ext hc
          rw [hji] at hj
          exact absurd hj.symm hne
        · have hlt : idx.get ⟨i+1, h⟩ < idx.get j :=
            hpg ⟨i+1, h⟩ j (by simpa [Fin.lt_def] using hc)
          rw [hj] at hlt
          omega
      rw [hcongr]
      rfl
    · rw [lastObsLE_of_mem hs (mem_of_lookupObs hl)]
      rfl

/-! Lemmas about the macro frame index. -/

lemma macroDates_sorted (m : MacroBundle) : List.Sorted (· < ·) (macroDates m) := by
  have hle : List.Sorted (· ≤ ·) (macroDates m) :=
    List.Pairwise.sublist (List.dedup_sublist _) (List.sorted_insertionSort _ _)
  exact hle.lt_of_le (List.nodup_dedup _)

lemma macroDates_nodup (m : MacroBundle) : (macroDates m).Nodup := List.nodup_dedup _

lemma mem_macroDates {m : MacroBundle} {d : ℕ} :
    d ∈ macroDates m ↔
      d ∈ (m.Total_Assets ++ m.TGA ++ m.RRP ++ m.SOFR ++ m.EFFR).map Prod.fst := by
  unfold macroDates
  rw [List.mem_dedup]
  exact (List.perm_insertionSort _ _).mem_iff

lemma seriesOf_mem_macroDates (m : MacroBundle) (c : MCol) {p : ℕ × ℚ}
    (hp : p ∈ m.seriesOf c) : p.1 ∈ macroDates m := by
  rw [mem_macroDates]
  refine List.mem_map_of_mem Prod.fst ?_
  cases c <;> simp [MacroBundle.seriesOf] at hp <;> simp [List.mem_append, hp]

lemma length_fillna (t : Table) : (fillna_ffill t).length = t.length := length_ffillGo _ _

lemma length_macro_df (m : MacroBundle) : (macro_df m).length = (macroDates m).length := by
  simp [macro_df]

/-! Characterisation of the forward-filled macro frame. -/

lemma fillna_macro_eq (m : MacroBundle) (hm : SortedBundle m) :
    fillna_ffill (macro_df m) = (macroDates m).map fun d => (d, macroRowF m d) := by
  obtain ⟨hm1, hm2, hm3, hm4, hm5⟩ := hm
  have hsorted := macroDates_sorted m
  apply List.ext_get
  · simp [length_fillna, macro_df]
  intro i hi1 hi2
  have hlen : i < (macro_df m).length := by simpa [length_fillna] using hi1
  have hidx : i < (macroDates m).length := by simpa [length_macro_df] using hlen
  show (ffillGo Row.blank (macro_df m)).get ⟨i, hi1⟩ = _
  rw [ffillGo_get (macro_df m) Row.blank i hlen hi1]
  have hfst : ((macro_df m).get ⟨i, hlen⟩).1 = (macroDates m).get ⟨i, hidx⟩ := by
    simp [macro_df, List.get_eq_getElem, List.getElem_map]
  have hrhs : ((macroDates m).map fun d => (d, macroRowF m d)).get ⟨i, hi2⟩ =
      ((macroDates m).get ⟨i, hidx⟩, macroRowF m ((macroDates m).get ⟨i, hidx⟩)) := by
    simp [List.get_eq_getElem, List.getElem_map]
  rw [hrhs]
  have htake : (macro_df m).take (i+1) =
      ((macroDates m).take (i+1)).map fun d => (d, macroRow0 m d) := by
    simp [macro_df, List.map_take]
  refine Prod.ext hfst ?_
  rw [htake]
  have hcol : ∀ (g : Row → Option ℚ) (s : RawSeries),
      (∀ a r, g (Row.ffillWith a r) = keep (g r) (g a)) →
      g Row.blank = none →
      (∀ d, g (macroRow0 m d) = lookupObs s d) →
      SortedSeries s → (∀ p ∈ s, p.1 ∈ macroDates m) →
      g ((((macroDates m).take (i+1)).map fun d => (d, macroRow0 m d)).foldl
          (fun acc p => Row.ffillWith acc p.2) Row.blank) =
        lastObsLE s ((macroDates m).get ⟨i, hidx⟩) := by
    intro g s hg hblank hrow hs hobs
    rw [foldl_ffillWith_proj g hg, hblank, List.map_map]
    have hcomp : ((fun p : ℕ × Row => g p.2) ∘ fun d => (d, macroRow0 m d)) =
        fun d => lookupObs s d := funext fun d => hrow d
    rw [hcomp]
    exact keepFold_lookup hs hsorted hobs i hidx
  have hnone : ∀ (g : Row → Option ℚ),
      (∀ a r, g (Row.ffillWith a r) = keep (g r) (g a)) →
      g Row.blank = none →
      (∀ d, g (macroRow0 m d) = none) →
      g ((((macroDates m).take (i+1)).map fun d => (d, macroRow0 m d)).foldl
          (fun acc p => Row.ffillWith acc p.2) Row.blank) = none := by
    intro g hg hblank hrow
    rw [foldl_ffillWith_proj g hg, hblank, List.map_map]
    apply keepFold_all_none
    intro u hu
    rcases List.mem_map.mp hu with ⟨d, _, rfl⟩
    exact hrow d
  refine Row.ext ?_ ?_ ?_ ?_ ?_ ?_ ?_ ?_ ?_ ?_
  · exact hnone Row.SPY (fun a r => rfl) rfl (fun d => rfl)
  · exact hnone Row.QQQ (fun a r => rfl) rfl (fun d => rfl)
  · exact hnone Row.Y10_Yield (fun a r => rfl) rfl (fun d => rfl)
  · exact hcol Row.Total_Assets m.Total_Assets (fun a r => rfl) rfl (fun d => rfl) hm1
      (fun p hp => seriesOf_mem_macroDates m MCol.Total_Assets hp)
  · exact hcol Row.TGA m.TGA (fun a r => rfl) rfl (fun d => rfl) hm2
      (fun p hp => seriesOf_mem_macroDates m MCol.TGA hp)
  · exact hcol Row.RRP m.RRP (fun a r => rfl) rfl (fun d => rfl) hm3
      (fun p hp => seriesOf_mem_macroDates m MCol.RRP hp)
  · exact hcol Row.SOFR m.SOFR (fun a r => rfl) rfl (fun d => rfl) hm4
      (fun p hp => seriesOf_mem_macroDates m MCol.SOFR hp)
  · exact hcol Row.EFFR m.EFFR (fun a r => rfl) rfl (fun d => rfl) hm5
      (fun p hp => seriesOf_mem_macroDates m MCol.EFFR hp)
  · exact hnone Row.Net_Liquidity (fun a r => rfl) rfl (fun d => rfl)
  · exact hnone Row.Rate_Spread (fun a r => rfl) rfl (fun d => rfl)

lemma macroT_eq (m : MacroBundle) (hm : SortedBundle m) :
    addDerived (fillna_ffill (macro_df m)) =
      (macroDates m).map fun d => (d, macroFillRow m d) := by
  rw [fillna_macro_eq m hm]
  simp only [addDerived, List.map_map]
  exact List.map_congr_left fun d _ => rfl

/-! Characterisation of the inner join. -/

lemma rowAt_map (f : ℕ → Row) (d : ℕ) :
    ∀ (idx : List ℕ), rowAt (idx.map fun x => (x, f x)) d =
      if d ∈ idx then some (f d) else none := by
  intro idx
  induction idx with
  | nil => simp [rowAt]
  | cons a rest ih =>
    by_cases hda : d = a
    · subst hda
      rw [List.map_cons, rowAt, List.find?_cons_of_pos _ (by simp)]
      simp
    · rw [List.map_cons, rowAt, List.find?_cons_of_neg _ (by simpa using fun h => hda h.symm)]
      rw [← rowAt, ih]
      have hmemiff : (d ∈ a :: rest) ↔ (d ∈ rest) := by
        rw [List.mem_cons]
        exact ⟨fun h => h.resolve_left hda, Or.inr⟩
      rw [if_congr hmemiff rfl rfl]

lemma join_inner_map (stock : Table) (idx : List ℕ) (f : ℕ → Row) :
    join_inner stock (idx.map fun x => (x, f x)) =
      (stock.filter fun p => decide (p.1 ∈ idx)).map fun p => (p.1, joinRow p.2 (f p.1)) := by
  induction stock with
  | nil => rfl
  | cons q rest ih =>
    have hrow := rowAt_map f q.1 idx
    by_cases hq : q.1 ∈ idx
    · rw [if_pos hq] at hrow
      show List.filterMap _ (q :: rest) = _
      rw [List.filterMap_cons, hrow]
      show (q.1, joinRow q.2 (f q.1)) :: join_inner rest (idx.map fun x => (x, f x)) = _
      rw [ih, List.filter_cons, if_pos (by simpa using hq), List.map_cons]
    · rw [if_neg hq] at hrow
      show List.filterMap _ (q :: rest) = _
      rw [List.filterMap_cons, hrow]
      show join_inner rest (idx.map fun x => (x, f x)) = _
      rw [ih, List.filter_cons, if_neg (by simpa using hq)]

lemma sort_index_eq_self {t : Table} (h : List.Pairwise (fun a b : ℕ × Row => a.1 ≤ b.1) t) :
    sort_index t = t :=
  List.Sorted.insertionSort_eq h

/-! Characterisation of the final frame. -/

lemma df_final_eq (stock : Table) (m : MacroBundle) (hst : SortedTable stock)
    (hm : SortedBundle m) :
    df_final stock m = fillna_ffill ((stock.filter fun p => decide (p.1 ∈ macroDates m)).map
      fun p => (p.1, joinRow p.2 (macroFillRow m p.1))) := by
  have hj : join_inner stock (addDerived (fillna_ffill (macro_df m))) =
      (stock.filter fun p => decide (p.1 ∈ macroDates m)).map
        fun p => (p.1, joinRow p.2 (macroFillRow m p.1)) := by
    rw [macroT_eq m hm]
    exact join_inner_map stock (macroDates m) (macroFillRow m)
  show fillna_ffill (sort_index (join_inner stock (addDerived (fillna_ffill (macro_df m))))) = _
  rw [hj]
  congr 1
  apply sort_index_eq_self
  rw [List.pairwise_map]
  have hpl : List.Pairwise (fun a b : ℕ × Row => a.1 < b.1) stock := List.pairwise_map.mp hst
  exact (hpl.filter _).imp le_of_lt

lemma map_fst_filter_pred (q : ℕ → Bool) (l : Table) :
    (l.filter fun p => q p.1).map Prod.fst = (l.map Prod.fst).filter q := by
  induction l with
  | nil => rfl
  | cons p rest ih =>
    by_cases hq : q p.1
    · simp [List.filter_cons, hq, ih]
    · simp [List.filter_cons, hq, ih]

lemma df_final_map_fst (stock : Table) (m : MacroBundle) (hst : SortedTable stock)
    (hm : SortedBundle m) :
    (df_final stock m).map Prod.fst =
      (stock.map Prod.fst).filter fun d => decide (d ∈ macroDates m) := by
  rw [df_final_eq stock m hst hm]
  show (ffillGo Row.blank _).map Prod.fst = _
  rw [map_fst_ffillGo, List.map_map]
  have hcomp : (Prod.fst ∘ fun p : ℕ × Row => (p.1, joinRow p.2 (macroFillRow m p.1))) =
      (Prod.fst : ℕ × Row → ℕ) := funext fun p => rfl
  rw [hcomp]
  exact map_fst_filter_pred (fun d => decide (d ∈ macroDates m)) stock

lemma fillna_get (T : Table) (i : ℕ) (h2 : i < (fillna_ffill T).length) (hT : i < T.length) :
    (fillna_ffill T).get ⟨i, h2⟩ =
      ((T.get ⟨i, hT⟩).1, (T.take (i+1)).foldl (fun acc p => Row.ffillWith acc p.2) Row.blank) :=
  ffillGo_get T Row.blank i hT h2

lemma fillna_get_col (T : Table) (g : Row → Option ℚ)
    (hg : ∀ a r, g (Row.ffillWith a r) = keep (g r) (g a)) (hblank : g Row.blank = none)
    (i : ℕ) (h2 : i < (fillna_ffill T).length) (hT : i < T.length) :
    g ((fillna_ffill T).get ⟨i, h2⟩).2 = keepFold none ((T.take (i+1)).map fun p => g p.2) := by
  rw [fillna_get T i h2 hT]
  simpa [hblank] using foldl_ffillWith_proj g hg (T.take (i+1)) Row.blank

lemma fillna_map_get_fst (F : Table) (w : ℕ → Row) (i : ℕ)
    (h2 : i < (fillna_ffill (F.map fun p => (p.1, joinRow p.2 (w p.1)))).length)
    (hFi : i < F.length) :
    ((fillna_ffill (F.map fun p => (p.1, joinRow p.2 (w p.1)))).get ⟨i, h2⟩).1 =
      (F.get ⟨i, hFi⟩).1 := by
  have hT : i < (F.map fun p => (p.1, joinRow p.2 (w p.1))).length := by simpa using hFi
  rw [fillna_get _ i h2 hT]
  simp [List.get_eq_getElem, List.getElem_map]

lemma fillna_get_col_closed (F : Table)
    (hF : List.Pairwise (fun a b : ℕ × Row => a.1 < b.1) F)
    (w : ℕ → Row) (g : Row → Option ℚ)
    (hg : ∀ a r, g (Row.ffillWith a r) = keep (g r) (g a)) (hblank : g Row.blank = none)
    (v : ℕ → Option ℚ) (hval : ∀ p : ℕ × Row, g (joinRow p.2 (w p.1)) = v p.1)
    (hmono : ∀ d d', d ≤ d' → v d' = none → v d = none)
    (i : ℕ) (h2 : i < (fillna_ffill (F.map fun p => (p.1, joinRow p.2 (w p.1)))).length)
    (hFi : i < F.length) :
    g ((fillna_ffill (F.map fun p => (p.1, joinRow p.2 (w p.1)))).get ⟨i, h2⟩).2 =
      v ((F.get ⟨i, hFi⟩).1) := by
  have hT : i < (F.map fun p => (p.1, joinRow p.2 (w p.1))).length := by simpa using hFi
  rw [fillna_get_col _ g hg hblank i h2 hT]
  have h1 : ((F.map fun p => (p.1, joinRow p.2 (w p.1))).take (i+1)).map (fun p => g p.2) =
      (F.take (i+1)).map fun p => v p.1 := by
    rw [← List.map_take, List.map_map]
    exact List.map_congr_left fun p _ => hval p
  rw [h1]
  have htake : F.take (i+1) = F.take i ++ [F.get ⟨i, hFi⟩] := by
    rw [List.get_eq_getElem]
    exact (List.take_concat_get' F i hFi).symm
  rw [htake, List.map_append, List.map_singleton]
  apply keepFold_concat_closed
  intro hnone u hu
  rcases List.mem_map.mp hu with ⟨p, hp, rfl⟩
  have hple : p.1 ≤ (F.get ⟨i, hFi⟩).1 := by
    have hsub : List.Pairwise (fun a b : ℕ × Row => a.1 < b.1) (F.take (i+1)) :=
      List.Pairwise.sublist (List.take_sublist _ _) hF
    rw [htake] at hsub
    rcases List.pairwise_append.mp hsub with ⟨_h1, _h2, hrel⟩
    exact le_of_lt (hrel p hp (F.get ⟨i, hFi⟩) (by simp))
  exact hmono p.1 _ hple hnone

lemma df_final_master (stock : Table) (m : MacroBundle) (hst : SortedTable stock)
    (hm : SortedBundle m) (g : Row → Option ℚ)
    (hg : ∀ a r, g (Row.ffillWith a r) = keep (g r) (g a)) (hblank : g Row.blank = none)
    (v : ℕ → Option ℚ) (hval : ∀ p : ℕ × Row, g (joinRow p.2 (macroFillRow m p.1)) = v p.1)
    (hmono : ∀ d d', d ≤ d' → v d' = none → v d = none)
    (i : ℕ) (h : i < (df_final stock m).length) :
    g (((df_final stock m).get ⟨i, h⟩).2) = v (((df_final stock m).get ⟨i, h⟩).1) := by
  have heq := df_final_eq stock m hst hm
  have hget := List.get_of_eq heq ⟨i, h⟩
  rw [hget]
  have hFi : i < (stock.filter fun p => decide (p.1 ∈ macroDates m)).length := by
    have h2 := (heq ▸ h :
      i < (fillna_ffill ((stock.filter fun p => decide (p.1 ∈ macroDates m)).map
        fun p => (p.1, joinRow p.2 (macroFillRow m p.1)))).length)
    simpa [length_fillna] using h2
  have hFp : List.Pairwise (fun a b : ℕ × Row => a.1 < b.1)
      (stock.filter fun p => decide (p.1 ∈ macroDates m)) :=
    (List.pairwise_map.mp hst).filter _
  rw [fillna_get_col_closed _ hFp (macroFillRow m) g hg hblank v hval hmono i _ hFi]
  congr 1
  exact (fillna_map_get_fst _ (macroFillRow m) i _ hFi).symm

/-! Column-wise corollaries for the final frame. -/

lemma optNetLiq_eq_none {a g r : Option ℚ} :
    optNetLiq a g r = none ↔ a = none ∨ g = none ∨ r = none := by
  cases a <;> cases g <;> cases r <;> simp [optNetLiq]

lemma optSpread_eq_none {s e : Option ℚ} :
    optSpread s e = none ↔ s = none ∨ e = none := by
  cases s <;> cases e <;> simp [optSpread]

lemma df_final_mcol (stock : Table) (m : MacroBundle) (hst : SortedTable stock)
    (hm : SortedBundle m) (c : MCol) (i : ℕ) (h : i < (df_final stock m).length) :
    (((df_final stock m).get ⟨i, h⟩).2).mcol c =
      lastObsLE (m.seriesOf c) (((df_final stock m).get ⟨i, h⟩).1) := by
  cases c
  · exact df_final_master stock m hst hm Row.Total_Assets (fun a r => rfl) rfl
      (fun d => lastObsLE m.Total_Assets d) (fun p => rfl)
      (fun d d' hdd hn => lastObsLE_mono_none hdd hn) i h
  · exact df_final_master stock m hst hm Row.TGA (fun a r => rfl) rfl
      (fun d => lastObsLE m.TGA d) (fun p => rfl)
      (fun d d' hdd hn => lastObsLE_mono_none hdd hn) i h
  · exact df_final_master stock m hst hm Row.RRP (fun a r => rfl) rfl
      (fun d => lastObsLE m.RRP d) (fun p => rfl)
      (fun d d' hdd hn => lastObsLE_mono_none hdd hn) i h
  · exact df_final_master stock m hst hm Row.SOFR (fun a r => rfl) rfl
      (fun d => lastObsLE m.SOFR d) (fun p => rfl)
      (fun d d' hdd hn => lastObsLE_mono_none hdd hn) i h
  · exact df_final_master stock m hst hm Row.EFFR (fun a r => rfl) rfl
      (fun d => lastObsLE m.EFFR d) (fun p => rfl)
      (fun d d' hdd hn => lastObsLE_mono_none hdd hn) i h

lemma df_final_NL (stock : Table) (m : MacroBundle) (hst : SortedTable stock)
    (hm : SortedBundle m) (i : ℕ) (h : i < (df_final stock m).length) :
    (((df_final stock m).get ⟨i, h⟩).2).Net_Liquidity =
      optNetLiq (lastObsLE m.Total_Assets (((df_final stock m).get ⟨i, h⟩).1))
        (lastObsLE m.TGA (((df_final stock m).get ⟨i, h⟩).1))
        (lastObsLE m.RRP (((df_final stock m).get ⟨i, h⟩).1)) :=
  df_final_master stock m hst hm Row.Net_Liquidity (fun a r => rfl) rfl
    (fun d => optNetLiq (lastObsLE m.Total_Assets d) (lastObsLE m.TGA d) (lastObsLE m.RRP d))
    (fun p => rfl)
    (fun d d' hdd hn => by
      rcases optNetLiq_eq_none.mp hn with h1 | h1 | h1
      · exact optNetLiq_eq_none.mpr (Or.inl (lastObsLE_mono_none hdd h1))
      · exact optNetLiq_eq_none.mpr (Or.inr (Or.inl (lastObsLE_mono_none hdd h1)))
      · exact optNetLiq_eq_none.mpr (Or.inr (Or.inr (lastObsLE_mono_none hdd h1)))) i h

lemma df_final_RS (stock : Table) (m : MacroBundle) (hst : SortedTable stock)
    (hm : SortedBundle m) (i : ℕ) (h : i < (df_final stock m).length) :
    (((df_final stock m).get ⟨i, h⟩).2).Rate_Spread =
      optSpread (lastObsLE m.SOFR (((df_final stock m).get ⟨i, h⟩).1))
        (lastObsLE m.EFFR (((df_final stock m).get ⟨i, h⟩).1)) :=
  df_final_master stock m hst hm Row.Rate_Spread (fun a r => rfl) rfl
    (fun d => optSpread (lastObsLE m.SOFR d) (lastObsLE m.EFFR d))
    (fun p => rfl)
    (fun d d' hdd hn => by
      rcases optSpread_eq_none.mp hn with h1 | h1
      · exact optSpread_eq_none.mpr (Or.inl (lastObsLE_mono_none hdd h1))
      · exact optSpread_eq_none.mpr (Or.inr (lastObsLE_mono_none hdd h1))) i h

lemma df_final_fst_mono (stock : Table) (m : MacroBundle) (hst : SortedTable stock)
    (hm : SortedBundle m) {i j : ℕ} (hi : i < (df_final stock m).length)
    (hj : j < (df_final stock m).length) (hij : i ≤ j) :
    ((df_final stock m).get ⟨i, hi⟩).1 ≤ ((df_final stock m).get ⟨j, hj⟩).1 := by
  rcases Nat.eq_or_lt_of_le hij with heq | hlt
  · subst heq
    exact le_rfl
  · have hs : List.Sorted (· < ·) ((df_final stock m).map Prod.fst) := by
      rw [df_final_map_fst stock m hst hm]
      exact List.Pairwise.filter _ hst
    have hi' : i < ((df_final stock m).map Prod.fst).length := by simpa using hi
    have hj' : j < ((df_final stock m).map Prod.fst).length := by simpa using hj
    have := List.pairwise_iff_get.mp hs ⟨i, hi'⟩ ⟨j, hj'⟩ (by simpa [Fin.lt_def] using hlt)
    have hgi : ((df_final stock m).map Prod.fst).get ⟨i, hi'⟩ =
        ((df_final stock m).get ⟨i, hi⟩).1 := by
      simp [List.get_eq_getElem, List.getElem_map]
    have hgj : ((df_final stock m).map Prod.fst).get ⟨j, hj'⟩ =
        ((df_final stock m).get ⟨j, hj⟩).1 := by
      simp [List.get_eq_getElem, List.getElem_map]
    rw [hgi, hgj] at this
    exact le_of_lt this

lemma df_final_index_props (stock : Table) (m : MacroBundle) (hst : SortedTable stock)
    (hm : SortedBundle m) :
    List.Sorted (· < ·) ((df_final stock m).map Prod.fst) ∧
    ((df_final stock m).map Prod.fst).Nodup ∧
    ∀ d ∈ (df_final stock m).map Prod.fst, d ∈ stock.map Prod.fst := by
  have hs : List.Sorted (· < ·) ((df_final stock m).map Prod.fst) := by
    rw [df_final_map_fst stock m hst hm]
    exact List.Pairwise.filter _ hst
  refine ⟨hs, hs.imp fun h => ne_of_lt h, ?_⟩
  intro d hd
  rw [df_final_map_fst stock m hst hm] at hd
  exact List.mem_of_mem_filter hd

/-! Claim theorems. -/

/-- C1: on every row of the table produced by `get_data_bundle` (all fetches succeeding),
whenever the row's Total_Assets, TGA and RRP values are defined, the Net_Liquidity column
equals `(Total_Assets - TGA - RRP) / 1000`, and whenever the row's SOFR and EFFR values are
defined, the Rate_Spread column equals `SOFR - EFFR`. -/
theorem claim_C1 (stock : Table) (ta tga rrp sofr effr : RawSeries)
    (hst : SortedTable stock) (hm : SortedBundle ⟨ta, tga, rrp, sofr, effr⟩) (i : ℕ)
    (h : i < (okBundle stock ta tga rrp sofr effr).length) (a g r s e : ℚ)
    (hTA : (((okBundle stock ta tga rrp sofr effr).get ⟨i, h⟩).2).Total_Assets = some a)
    (hTGA : (((okBundle stock ta tga rrp sofr effr).get ⟨i, h⟩).2).TGA = some g)
    (hRRP : (((okBundle stock ta tga rrp sofr effr).get ⟨i, h⟩).2).RRP = some r)
    (hSOFR : (((okBundle stock ta tga rrp sofr effr).get ⟨i, h⟩).2).SOFR = some s)
    (hEFFR : (((okBundle stock ta tga rrp sofr effr).get ⟨i, h⟩).2).EFFR = some e) :
    (((okBundle stock ta tga rrp sofr effr).get ⟨i, h⟩).2).Net_Liquidity =
      some ((a - g - r) / 1000) ∧
    (((okBundle stock ta tga rrp sofr effr).get ⟨i, h⟩).2).Rate_Spread = some (s - e) := by
  have h' : i < (df_final stock ⟨ta, tga, rrp, sofr, effr⟩).length := h
  have hTA' : (((df_final stock ⟨ta, tga, rrp, sofr, effr⟩).get ⟨i, h'⟩).2).Total_Assets =
      some a := hTA
  have hTGA' : (((df_final stock ⟨ta, tga, rrp, sofr, effr⟩).get ⟨i, h'⟩).2).TGA =
      some g := hTGA
  have hRRP' : (((df_final stock ⟨ta, tga, rrp, sofr, effr⟩).get ⟨i, h'⟩).2).RRP =
      some r := hRRP
  have hSOFR' : (((df_final stock ⟨ta, tga, rrp, sofr, effr⟩).get ⟨i, h'⟩).2).SOFR =
      some s := hSOFR
  have hEFFR' : (((df_final stock ⟨ta, tga, rrp, sofr, effr⟩).get ⟨i, h'⟩).2).EFFR =
      some e := hEFFR
  have eTA : (((df_final stock ⟨ta, tga, rrp, sofr, effr⟩).get ⟨i, h'⟩).2).Total_Assets =
      lastObsLE ta (((df_final stock ⟨ta, tga, rrp, sofr, effr⟩).get ⟨i, h'⟩).1) :=
    df_final_mcol stock ⟨ta, tga, rrp, sofr, effr⟩ hst hm MCol.Total_Assets i h'
  have eTGA : (((df_final stock ⟨ta, tga, rrp, sofr, effr⟩).get ⟨i, h'⟩).2).TGA =
      lastObsLE tga (((df_final stock ⟨ta, tga, rrp, sofr, effr⟩).get ⟨i, h'⟩).1) :=
    df_final_mcol stock ⟨ta, tga, rrp, sofr, effr⟩ hst hm MCol.TGA i h'
  have eRRP : (((df_final stock ⟨ta, tga, rrp, sofr, effr⟩).get ⟨i, h'⟩).2).RRP =
      lastObsLE rrp (((df_final stock ⟨ta, tga, rrp, sofr, effr⟩).get ⟨i, h'⟩).1) :=
    df_final_mcol stock ⟨ta, tga, rrp, sofr, effr⟩ hst hm MCol.RRP i h'
  have eSOFR : (((df_final stock ⟨ta, tga, rrp, sofr, effr⟩).get ⟨i, h'⟩).2).SOFR =
      lastObsLE sofr (((df_final stock ⟨ta, tga, rrp, sofr, effr⟩).get ⟨i, h'⟩).1) :=
    df_final_mcol stock ⟨ta, tga, rrp, sofr, effr⟩ hst hm MCol.SOFR i h'
  have eEFFR : (((df_final stock ⟨ta, tga, rrp, sofr, effr⟩).get ⟨i, h'⟩).2).EFFR =
      lastObsLE effr (((df_final stock ⟨ta, tga, rrp, sofr, effr⟩).get ⟨i, h'⟩).1) :=
    df_final_mcol stock ⟨ta, tga, rrp, sofr, effr⟩ hst hm MCol.EFFR i h'
  rw [eTA] at hTA'
  rw [eTGA] at hTGA'
  rw [eRRP] at hRRP'
  rw [eSOFR] at hSOFR'
  rw [eEFFR] at hEFFR'
  have eNL := df_final_NL stock ⟨ta, tga, rrp, sofr, effr⟩ hst hm i h'
  have eRS := df_final_RS stock ⟨ta, tga, rrp, sofr, effr⟩ hst hm i h'
  rw [hTA', hTGA', hRRP'] at eNL
  rw [hSOFR', hEFFR'] at eRS
  simp only [optNetLiq] at eNL
  simp only [optSpread] at eRS
  exact ⟨eNL, eRS⟩

/-- Witness for C1 at one concrete input. -/
theorem claim_C1_witness :
    (((okBundle stockW taW tgaW rrpW sofrW effrW).get ⟨0, by decide⟩).2).Net_Liquidity =
      some ((8000000 - 700000 - 300000) / 1000) ∧
    (((okBundle stockW taW tgaW rrpW sofrW effrW).get ⟨0, by decide⟩).2).Rate_Spread =
      some (5 - 6) :=
  claim_C1 stockW taW tgaW rrpW sofrW effrW (by decide)
    ⟨by decide, by decide, by decide, by decide, by decide⟩ 0 (by decide)
    8000000 700000 300000 5 6 (by decide) (by decide) (by decide) (by decide) (by decide)

/-- C2: the row index of the table returned by `get_data_bundle` is strictly ascending
with unique dates, and every index date is one of the dates of the equity fetch result. -/
theorem claim_C2 (stockRes : Except String Table)
    (taRes tgaRes rrpRes sofrRes effrRes : Except String RawSeries)
    (hst : ∀ t, stockRes = Except.ok t → SortedTable t)
    (hta : ∀ s, taRes = Except.ok s → SortedSeries s)
    (htga : ∀ s, tgaRes = Except.ok s → SortedSeries s)
    (hrrp : ∀ s, rrpRes = Except.ok s → SortedSeries s)
    (hsofr : ∀ s, sofrRes = Except.ok s → SortedSeries s)
    (heffr : ∀ s, effrRes = Except.ok s → SortedSeries s) :
    List.Sorted (· < ·)
      ((get_data_bundle stockRes taRes tgaRes rrpRes sofrRes effrRes).map Prod.fst) ∧
    ((get_data_bundle stockRes taRes tgaRes rrpRes sofrRes effrRes).map Prod.fst).Nodup ∧
    ∀ d ∈ (get_data_bundle stockRes taRes tgaRes rrpRes sofrRes effrRes).map Prod.fst,
      ∀ t, stockRes = Except.ok t → d ∈ t.map Prod.fst := by
  cases stockRes with
  | error e =>
    refine ⟨?_, ?_, ?_⟩ <;> simp [get_data_bundle]
  | ok stock =>
  cases taRes with
  | error e =>
    refine ⟨?_, ?_, ?_⟩ <;> simp [get_data_bundle]
  | ok ta =>
  cases tgaRes with
  | error e =>
    refine ⟨?_, ?_, ?_⟩ <;> simp [get_data_bundle]
  | ok tga =>
  cases rrpRes with
  | error e =>
    refine ⟨?_, ?_, ?_⟩ <;> simp [get_data_bundle]
  | ok rrp =>
  cases sofrRes with
  | error e =>
    refine ⟨?_, ?_, ?_⟩ <;> simp [get_data_bundle]
  | ok sofr =>
  cases effrRes with
  | error e =>
    refine ⟨?_, ?_, ?_⟩ <;> simp [get_data_bundle]
  | ok effr =>
  have hkey : get_data_bundle (Except.ok stock) (Except.ok ta) (Except.ok tga)
      (Except.ok rrp) (Except.ok sofr) (Except.ok effr) =
      df_final stock ⟨ta, tga, rrp, sofr, effr⟩ := rfl
  rw [hkey]
  have hm : SortedBundle ⟨ta, tga, rrp, sofr, effr⟩ :=
    ⟨hta ta rfl, htga tga rfl, hrrp rrp rfl, hsofr sofr rfl, heffr effr rfl⟩
  obtain ⟨h1, h2, h3⟩ :=
    df_final_index_props stock ⟨ta, tga, rrp, sofr, effr⟩ (hst stock rfl) hm
  refine ⟨h1, h2, ?_⟩
  intro d hd t ht
  injection ht with hts
  subst hts
  exact h3 d hd

/-- Witness for C2 at one concrete input. -/
theorem claim_C2_witness :
    List.Sorted (· < ·)
      ((get_data_bundle (Except.ok stockW) (Except.ok taW) (Except.ok tgaW)
        (Except.ok rrpW) (Except.ok sofrW) (Except.ok effrW)).map Prod.fst) ∧
    ((get_data_bundle (Except.ok stockW) (Except.ok taW) (Except.ok tgaW)
        (Except.ok rrpW) (Except.ok sofrW) (Except.ok effrW)).map Prod.fst).Nodup ∧
    ∀ d ∈ (get_data_bundle (Except.ok stockW) (Except.ok taW) (Except.ok tgaW)
        (Except.ok rrpW) (Except.ok sofrW) (Except.ok effrW)).map Prod.fst,
      ∀ t, (Except.ok stockW : Except String Table) = Except.ok t → d ∈ t.map Prod.fst :=
  claim_C2 (Except.ok stockW) (Except.ok taW) (Except.ok tgaW) (Except.ok rrpW)
    (Except.ok sofrW) (Except.ok effrW)
    (fun t ht => by injection ht with h2; subst h2; decide)
    (fun s hs => by injection hs with h2; subst h2; decide)
    (fun s hs => by injection hs with h2; subst h2; decide)
    (fun s hs => by injection hs with h2; subst h2; decide)
    (fun s hs => by injection hs with h2; subst h2; decide)
    (fun s hs => by injection hs with h2; subst h2; decide)

/-- C3: after the align-and-fill steps, each macro column of the final table is missing
only on a contiguous leading prefix of rows, and a row's value is missing exactly when the
column's series has no observation on or before that row's date — so leading missing
values are neither back-filled nor replaced by zero. -/
theorem claim_C3 (stock : Table) (ta tga rrp sofr effr : RawSeries)
    (hst : SortedTable stock) (hm : SortedBundle ⟨ta, tga, rrp, sofr, effr⟩) (c : MCol)
    (i j : ℕ) (hi : i < (okBundle stock ta tga rrp sofr effr).length)
    (hj : j < (okBundle stock ta tga rrp sofr effr).length) (hij : i ≤ j) :
    ((((okBundle stock ta tga rrp sofr effr).get ⟨j, hj⟩).2).mcol c = none →
      (((okBundle stock ta tga rrp sofr effr).get ⟨i, hi⟩).2).mcol c = none) ∧
    ((((okBundle stock ta tga rrp sofr effr).get ⟨i, hi⟩).2).mcol c = none ↔
      ∀ p ∈ MacroBundle.seriesOf ⟨ta, tga, rrp, sofr, effr⟩ c,
        ¬ p.1 ≤ ((okBundle stock ta tga rrp sofr effr).get ⟨i, hi⟩).1) := by
  have hi' : i < (df_final stock ⟨ta, tga, rrp, sofr, effr⟩).length := hi
  have hj' : j < (df_final stock ⟨ta, tga, rrp, sofr, effr⟩).length := hj
  have eI := df_final_mcol stock ⟨ta, tga, rrp, sofr, effr⟩ hst hm c i hi'
  have eJ := df_final_mcol stock ⟨ta, tga, rrp, sofr, effr⟩ hst hm c j hj'
  have hdd := df_final_fst_mono stock ⟨ta, tga, rrp, sofr, effr⟩ hst hm hi' hj' hij
  constructor
  · intro hn
    have hn' : (((df_final stock ⟨ta, tga, rrp, sofr, effr⟩).get ⟨j, hj'⟩).2).mcol c =
        none := hn
    rw [eJ] at hn'
    show (((df_final stock ⟨ta, tga, rrp, sofr, effr⟩).get ⟨i, hi'⟩).2).mcol c = none
    rw [eI]
    exact lastObsLE_mono_none hdd hn'
  · show (((df_final stock ⟨ta, tga, rrp, sofr, effr⟩).get ⟨i, hi'⟩).2).mcol c = none ↔ _
    rw [eI]
    exact lastObsLE_none_iff

/-- Witness for C3 at one concrete input with a leading missing Total_Assets value. -/
theorem claim_C3_witness :
    ((((okBundle stockW2 taW2 tgaW2 rrpW2 sofrW2 effrW2).get ⟨0, by decide⟩).2).mcol
        MCol.Total_Assets = none →
      (((okBundle stockW2 taW2 tgaW2 rrpW2 sofrW2 effrW2).get ⟨0, by decide⟩).2).mcol
        MCol.Total_Assets = none) ∧
    ((((okBundle stockW2 taW2 tgaW2 rrpW2 sofrW2 effrW2).get ⟨0, by decide⟩).2).mcol
        MCol.Total_Assets = none ↔
      ∀ p ∈ MacroBundle.seriesOf ⟨taW2, tgaW2, rrpW2, sofrW2, effrW2⟩ MCol.Total_Assets,
        ¬ p.1 ≤ ((okBundle stockW2 taW2 tgaW2 rrpW2 sofrW2 effrW2).get ⟨0, by decide⟩).1) :=
  claim_C3 stockW2 taW2 tgaW2 rrpW2 sofrW2 effrW2 (by decide)
    ⟨by decide, by decide, by decide, by decide, by decide⟩ MCol.Total_Assets 0 0
    (by decide) (by decide) (Nat.le_refl 0)

/-- C4: the stress classification of a rate spread is the stressed label exactly when the
spread strictly exceeds 0.05 percentage points, and the normal label otherwise. -/
theorem claim_C4 (spread : ℚ) :
    (classifyStress spread = "⚠️ 紧张" ↔ 0.05 < spread) ∧
    (classifyStress spread = "正常" ↔ spread ≤ 0.05) := by
  unfold classifyStress
  by_cases h : 0.05 < spread
  · rw [if_pos h]
    exact ⟨⟨fun _ => h, fun _ => rfl⟩,
      ⟨fun hs => absurd hs (by decide), fun hle => absurd h (not_lt.mpr hle)⟩⟩
  · rw [if_neg h]
    exact ⟨⟨fun hs => absurd hs (by decide), fun hlt => absurd hlt h⟩,
      ⟨fun _ => le_of_not_lt h, fun _ => rfl⟩⟩

/-- C5: when the final table has exactly one row, the previous row used for delta
computation equals the latest row, the guarded access is in range, and every delta is
zero — exactly for the difference deltas, and for the percentage deltas whenever the
price is defined and nonzero. -/
theorem claim_C5 (df : Table) (h1 : df.length = 1) :
    prevRow df = latestRow df ∧ (latestRow df).isSome = true ∧
    ∀ d r, latestRow df = some (d, r) →
      (∀ x : ℚ, r.Net_Liquidity = some x →
        kpiDelta Row.Net_Liquidity diffChange df = some 0) ∧
      (∀ x : ℚ, r.Y10_Yield = some x → kpiDelta Row.Y10_Yield diffChange df = some 0) ∧
      (∀ x : ℚ, r.SPY = some x → x ≠ 0 → kpiDelta Row.SPY pctChange df = some 0) ∧
      (∀ x : ℚ, r.QQQ = some x → x ≠ 0 → kpiDelta Row.QQQ pctChange df = some 0) := by
  rcases df with _ | ⟨p, rest⟩
  · exact absurd h1 (by simp)
  · have hrest : rest = [] := by simpa using h1
    subst hrest
    refine ⟨rfl, rfl, ?_⟩
    intro d r hlr
    have hp : p = (d, r) := by simpa [latestRow] using hlr
    subst hp
    refine ⟨?_, ?_, ?_, ?_⟩
    · intro x hx
      simp [kpiDelta, latestRow, prevRow, diffChange, hx]
    · intro x hx
      simp [kpiDelta, latestRow, prevRow, diffChange, hx]
    · intro x hx hx0
      simp [kpiDelta, latestRow, prevRow, pctChange, hx, div_self hx0]
    · intro x hx hx0
      simp [kpiDelta, latestRow, prevRow, pctChange, hx, div_self hx0]

/-- Witness for C5 at a concrete one-row table. -/
theorem claim_C5_witness :
    prevRow [(1, rowW)] = latestRow [(1, rowW)] ∧
    (latestRow [(1, rowW)]).isSome = true ∧
    kpiDelta Row.Net_Liquidity diffChange [(1, rowW)] = some 0 ∧
    kpiDelta Row.SPY pctChange [(1, rowW)] = some 0 := by
  have h := claim_C5 [(1, rowW)] rfl
  refine ⟨h.1, h.2.1, ?_, ?_⟩
  · exact (h.2.2 1 rowW rfl).1 7000 (by decide)
  · exact (h.2.2 1 rowW rfl).2.2.1 100 (by decide) (by decide)

/-! Column-flattening lemmas for C6. -/

lemma map_getLevelValues0_pair (l : List String) (f : String) :
    (l.map fun i => ColLabel.pair i f).map getLevelValues0 = l := by
  induction l with
  | nil => rfl
  | cons a rest ih => simp [getLevelValues0, ih]

lemma map_getLevelValues0_single (l : List String) :
    (l.map ColLabel.single).map getLevelValues0 = l := by
  induction l with
  | nil => rfl
  | cons a rest ih => simp [getLevelValues0, ih]

lemma cleanStockColumns_eq (cols : List ColLabel) :
    cleanStockColumns cols = cols.map getLevelValues0 := by
  by_cases h : isMultiIndexCols cols <;> simp [cleanStockColumns, h]

/-- C6 counterexample: when the provider nests the field as the outermost level (field ×
instrument), the flattening step keeps the field names, so the result is not keyed by the
instruments — the claim's "irrespective of which nesting order" fails on the code. -/
theorem claim_C6_counterexample :
    cleanStockColumns [ColLabel.pair "Close" "SPY", ColLabel.pair "Close" "QQQ",
      ColLabel.pair "Close" "^TNX"] = ["Close", "Close", "Close"] ∧
    ¬ cleanStockColumns [ColLabel.pair "Close" "SPY", ColLabel.pair "Close" "QQQ",
      ColLabel.pair "Close" "^TNX"] = ["SPY", "QQQ", "^TNX"] :=
  ⟨rfl, by decide⟩

/-- C6 amended: the flattening step takes the outermost level of every column, so it
produces the instrument list exactly when the provider nests the instrument as the outer
level — for any instrument count, including a single instrument — and it leaves an
already-flat column list unchanged. -/
theorem claim_C6_amended (instruments : List String) (f : String) :
    cleanStockColumns (instruments.map fun i => ColLabel.pair i f) = instruments ∧
    cleanStockColumns (instruments.map ColLabel.single) = instruments := by
  rw [cleanStockColumns_eq, cleanStockColumns_eq]
  exact ⟨map_getLevelValues0_pair instruments f, map_getLevelValues0_single instruments⟩

/-- C7: if the equity fetch or any one of the five macro fetches fails, `get_data_bundle`
returns the explicit empty frame rather than any partially-populated table. -/
theorem claim_C7 (stockRes : Except String Table)
    (taRes tgaRes rrpRes sofrRes effrRes : Except String RawSeries)
    (hfail : (∃ e, stockRes = Except.error e) ∨ (∃ e, taRes = Except.error e) ∨
      (∃ e, tgaRes = Except.error e) ∨ (∃ e, rrpRes = Except.error e) ∨
      (∃ e, sofrRes = Except.error e) ∨ (∃ e, effrRes = Except.error e)) :
    get_data_bundle stockRes taRes tgaRes rrpRes sofrRes effrRes = [] := by
  cases stockRes <;> cases taRes <;> cases tgaRes <;> cases rrpRes <;> cases sofrRes <;>
    cases effrRes <;>
    first
    | rfl
    | (rcases hfail with ⟨e, he⟩ | ⟨e, he⟩ | ⟨e, he⟩ | ⟨e, he⟩ | ⟨e, he⟩ | ⟨e, he⟩ <;>
        simp at he)

/-- Witness for C7 with a failing equity fetch. -/
theorem claim_C7_witness :
    get_data_bundle (Except.error "network down") (Except.ok taW) (Except.ok tgaW)
      (Except.ok rrpW) (Except.ok sofrW) (Except.ok effrW) = [] :=
  claim_C7 (Except.error "network down") (Except.ok taW) (Except.ok tgaW) (Except.ok rrpW)
    (Except.ok sofrW) (Except.ok effrW) (Or.inl ⟨"network down", rfl⟩)

/-- C8 counterexample: with no configured secret and no valid key, the script run shows no
startup configuration error at all — the missing key is first discovered when the macro
fetch fails inside the data pull, contradicting "surfaced before any fetch is attempted". -/
theorem claim_C8_counterexample :
    Event.startupConfigError ∉ scriptTrace none (fun _ => false) ∧
    Event.fetchError ∈ scriptTrace none (fun _ => false) ∧
    Event.equityFetch ∈ scriptTrace none (fun _ => false) :=
  ⟨by decide, by decide, by decide⟩

/-- C8 amended: whenever the resolved key (configured secret, or the placeholder fallback)
is not valid, the script run shows no startup configuration error, still attempts the
equity fetch and the macro fetch, and the invalid key first surfaces as the caught fetch
error of the data pull. -/
theorem claim_C8_amended (secrets : Option String) (keyValid : String → Bool)
    (hbad : keyValid (resolveFredKey secrets) = false) :
    scriptTrace secrets keyValid = [Event.equityFetch, Event.macroFetch, Event.fetchError] := by
  simp [scriptTrace, hbad]

/-- Witness for C8 with an absent secret. -/
theorem claim_C8_witness :
    scriptTrace none (fun _ => false) =
      [Event.equityFetch, Event.macroFetch, Event.fetchError] :=
  claim_C8_amended none (fun _ => false) rfl

/-- C9 counterexample: 1095 is not among the recognised day-count presets of the sidebar
(the presets are 30, 90, 180, 365, 730 and 1825 days plus the year-to-date option). -/
theorem claim_C9_counterexample : (1095 : ℕ) ∉ dayCountPresets := by decide

/-- C9 amended: the recognised presets consist exactly of the day counts 30, 90, 180, 365,
730 and 1825 plus the year-to-date option; the year-to-date label resolves to January 1 of
the current year, and every day-count preset resolves to today minus its day count. -/
theorem claim_C9_amended :
    dayCountPresets = [30, 90, 180, 365, 730, 1825] ∧
    resolveStartDate "今年以来 (YTD)" = some StartDate.janFirstOfCurrentYear ∧
    ∀ label n, (label, Sum.inl n) ∈ time_options →
      resolveStartDate label = some (StartDate.nowMinusDays n) := by
  refine ⟨rfl, rfl, ?_⟩
  intro label n hmem
  simp only [time_options, List.mem_cons, List.not_mem_nil, or_false, Prod.mk.injEq,
    Sum.inl.injEq, reduceCtorEq, false_and, and_false, false_or] at hmem
  rcases hmem with ⟨rfl, rfl⟩ | ⟨rfl, rfl⟩ | ⟨rfl, rfl⟩ | ⟨rfl, rfl⟩ | ⟨rfl, rfl⟩ |
    ⟨rfl, rfl⟩ <;> rfl

/-- Witness for C9 on the one-year preset. -/
theorem claim_C9_witness :
    resolveStartDate "1年" = some (StartDate.nowMinusDays 365) :=
  claim_C9_amended.2.2 "1年" 365 (by simp [time_options])

/-- C10: deriving Net_Liquidity and Rate_Spread on the forward-filled macro frame before
the inner join, as the code does, produces exactly the same final table as the
specification's ordering, which aligns first (inner join with the forward-filled macro
frame, sort by date, second forward fill) and only then derives the columns from the
aligned inputs. -/
theorem claim_C10 (stock : Table) (m : MacroBundle) (hst : SortedTable stock)
    (hm : SortedBundle m) : df_final stock m = df_final_specOrder stock m := by
  have hFp : List.Pairwise (fun a b : ℕ × Row => a.1 < b.1)
      (stock.filter fun p => decide (p.1 ∈ macroDates m)) :=
    (List.pairwise_map.mp hst).filter _
  have heq1 := df_final_eq stock m hst hm
  have heq2 : df_final_specOrder stock m =
      addDerived (fillna_ffill ((stock.filter fun p => decide (p.1 ∈ macroDates m)).map
        fun p => (p.1, joinRow p.2 (macroRowF m p.1)))) := by
    unfold df_final_specOrder
    rw [fillna_macro_eq m hm, join_inner_map]
    have hsorted : List.Pairwise (fun a b : ℕ × Row => a.1 ≤ b.1)
        ((stock.filter fun p => decide (p.1 ∈ macroDates m)).map
          fun p => (p.1, joinRow p.2 (macroRowF m p.1))) := by
      rw [List.pairwise_map]
      exact hFp.imp le_of_lt
    rw [sort_index_eq_self hsorted]
  rw [heq1, heq2]
  set F := stock.filter fun p => decide (p.1 ∈ macroDates m) with hFdef
  apply List.ext_get
  · simp [length_fillna, addDerived]
  intro i h1 h2
  have hFi : i < F.length := by simpa [length_fillna] using h1
  have hT2 : i < (fillna_ffill (F.map fun p =>
      (p.1, joinRow p.2 (macroRowF m p.1)))).length := by
    simpa [length_fillna, addDerived] using h2
  have hrhs : (addDerived (fillna_ffill (F.map fun p =>
      (p.1, joinRow p.2 (macroRowF m p.1))))).get ⟨i, h2⟩ =
      (((fillna_ffill (F.map fun p => (p.1, joinRow p.2 (macroRowF m p.1)))).get
          ⟨i, hT2⟩).1,
        deriveRow ((fillna_ffill (F.map fun p =>
          (p.1, joinRow p.2 (macroRowF m p.1)))).get ⟨i, hT2⟩).2) := by
    simp [addDerived, List.get_eq_getElem, List.getElem_map]
  rw [hrhs]
  have hfield : ∀ (g : Row → Option ℚ),
      (∀ a r, g (Row.ffillWith a r) = keep (g r) (g a)) → g Row.blank = none →
      (∀ p : ℕ × Row,
        g (joinRow p.2 (macroFillRow m p.1)) = g (joinRow p.2 (macroRowF m p.1))) →
      g ((fillna_ffill (F.map fun p =>
          (p.1, joinRow p.2 (macroFillRow m p.1)))).get ⟨i, h1⟩).2 =
      g ((fillna_ffill (F.map fun p =>
          (p.1, joinRow p.2 (macroRowF m p.1)))).get ⟨i, hT2⟩).2 := by
    intro g hg hblank hsame
    rw [fillna_get_col _ g hg hblank i h1 (by simpa using hFi),
        fillna_get_col _ g hg hblank i hT2 (by simpa using hFi)]
    congr 1
    rw [← List.map_take, ← List.map_take, List.map_map, List.map_map]
    exact List.map_congr_left fun p _ => hsame p
  refine Prod.ext ?_ ?_
  · rw [fillna_map_get_fst F (macroFillRow m) i h1 hFi,
      fillna_map_get_fst F (macroRowF m) i hT2 hFi]
  · refine Row.ext ?_ ?_ ?_ ?_ ?_ ?_ ?_ ?_ ?_ ?_ <;> simp only [deriveRow]
    · exact hfield Row.SPY (fun a r => rfl) rfl (fun p => rfl)
    · exact hfield Row.QQQ (fun a r => rfl) rfl (fun p => rfl)
    · exact hfield Row.Y10_Yield (fun a r => rfl) rfl (fun p => rfl)
    · exact hfield Row.Total_Assets (fun a r => rfl) rfl (fun p => rfl)
    · exact hfield Row.TGA (fun a r => rfl) rfl (fun p => rfl)
    · exact hfield Row.RRP (fun a r => rfl) rfl (fun p => rfl)
    · exact hfield Row.SOFR (fun a r => rfl) rfl (fun p => rfl)
    · exact hfield Row.EFFR (fun a r => rfl) rfl (fun p => rfl)
    · have hL := fillna_get_col_closed F hFp (macroFillRow m) Row.Net_Liquidity
        (fun a r => rfl) rfl
        (fun d => optNetLiq (lastObsLE m.Total_Assets d) (lastObsLE m.TGA d)
          (lastObsLE m.RRP d))
        (fun p => rfl)
        (fun d d' hdd hn => by
          rcases optNetLiq_eq_none.mp hn with hn1 | hn1 | hn1
          · exact optNetLiq_eq_none.mpr (Or.inl (lastObsLE_mono_none hdd hn1))
          · exact optNetLiq_eq_none.mpr (Or.inr (Or.inl (lastObsLE_mono_none hdd hn1)))
          · exact optNetLiq_eq_none.mpr (Or.inr (Or.inr (lastObsLE_mono_none hdd hn1))))
        i h1 hFi
      have hTA := fillna_get_col_closed F hFp (macroRowF m) Row.Total_Assets
        (fun a r => rfl) rfl (fun d => lastObsLE m.Total_Assets d) (fun p => rfl)
        (fun d d' hdd hn => lastObsLE_mono_none hdd hn) i hT2 hFi
      have hTGA := fillna_get_col_closed F hFp (macroRowF m) Row.TGA
        (fun a r => rfl) rfl (fun d => lastObsLE m.TGA d) (fun p => rfl)
        (fun d d' hdd hn => lastObsLE_mono_none hdd hn) i hT2 hFi
      have hRRP := fillna_get_col_closed F hFp (macroRowF m) Row.RRP
        (fun a r => rfl) rfl (fun d => lastObsLE m.RRP d) (fun p => rfl)
        (fun d d' hdd hn => lastObsLE_mono_none hdd hn) i hT2 hFi
      rw [hL, hTA, hTGA, hRRP]
    · have hL := fillna_get_col_closed F hFp (macroFillRow m) Row.Rate_Spread
        (fun a r => rfl) rfl
        (fun d => optSpread (lastObsLE m.SOFR d) (lastObsLE m.EFFR d))
        (fun p => rfl)
        (fun d d' hdd hn => by
          rcases optSpread_eq_none.mp hn with hn1 | hn1
          · exact optSpread_eq_none.mpr (Or.inl (lastObsLE_mono_none hdd hn1))
          · exact optSpread_eq_none.mpr (Or.inr (lastObsLE_mono_none hdd hn1)))
        i h1 hFi
      have hSOFR := fillna_get_col_closed F hFp (macroRowF m) Row.SOFR
        (fun a r => rfl) rfl (fun d => lastObsLE m.SOFR d) (fun p => rfl)
        (fun d d' hdd hn => lastObsLE_mono_none hdd hn) i hT2 hFi
      have hEFFR := fillna_get_col_closed F hFp (macroRowF m) Row.EFFR
        (fun a r => rfl) rfl (fun d => lastObsLE m.EFFR d) (fun p => rfl)
        (fun d d' hdd hn => lastObsLE_mono_none hdd hn) i hT2 hFi
      rw [hL, hSOFR, hEFFR]

/-- Witness for C10 at one concrete input. -/
theorem claim_C10_witness :
    df_final stockW ⟨taW, tgaW, rrpW, sofrW, effrW⟩ =
      df_final_specOrder stockW ⟨taW, tgaW, rrpW, sofrW, effrW⟩ :=
  claim_C10 stockW ⟨taW, tgaW, rrpW, sofrW, effrW⟩ (by decide)
    ⟨by decide, by decide, by decide, by decide, by decide⟩
